import Mathlib

set_option linter.unusedVariables false

namespace ShareMove

/-- Node identifier of a cluster participant (derived from its public key, totally
ordered); modelled as a natural number. -/
abbrev NodeId := Nat

/-- Secret scalar (an evaluation point / id number); modelled as a natural number. -/
abbrev Secret := Nat

/-- Lookup in an association list modelling a `BTreeMap`: the first entry with the
given key (the only one, since map keys are unique). -/
def btreeLookup (k : Nat) : List (Nat × α) → Option α
  | [] => none
  | (k₀, v₀) :: rest => if k = k₀ then some v₀ else btreeLookup k rest

/-- Key-membership test of an association list (`BTreeMap::contains_key`). -/
def btreeContains (k : Nat) (l : List (Nat × α)) : Bool :=
  (btreeLookup k l).isSome

/-- Ordered insertion into a key-sorted association list, replacing an existing entry
with the same key (`BTreeMap::insert`). -/
def btreeInsert (k : Nat) (v : α) : List (Nat × α) → List (Nat × α)
  | [] => [(k, v)]
  | (k₀, v₀) :: rest =>
    if k < k₀ then (k, v) :: (k₀, v₀) :: rest
    else if k = k₀ then (k, v) :: rest
    else (k₀, v₀) :: btreeInsert k v rest

/-- Removal of a key from an association list, returning the removed value if any
(`BTreeMap::remove`). -/
def btreeRemove (k : Nat) : List (Nat × α) → Option α × List (Nat × α)
  | [] => (none, [])
  | (k₀, v₀) :: rest =>
    if k = k₀ then (some v₀, rest)
    else
      let r := btreeRemove k rest
      (r.1, (k₀, v₀) :: r.2)

/-- Extension of a map by a list of entries, inserted left to right
(`BTreeMap::extend`). -/
def btreeExtendMap (base : List (Nat × α)) (entries : List (Nat × α)) : List (Nat × α) :=
  entries.foldl (fun b p => btreeInsert p.1 p.2 b) base

/-- Keys of an association list, in list order (`BTreeMap::keys`). -/
def keysOf (l : List (Nat × α)) : List Nat := l.map Prod.fst

/-- Values of an association list, in list order (`BTreeMap::values`). -/
def valsOf (l : List (Nat × α)) : List α := l.map Prod.snd

/-- Ordered insertion into a sorted duplicate-free list modelling a `BTreeSet`. -/
def setInsert (k : Nat) : List Nat → List Nat
  | [] => [k]
  | x :: xs => if k < x then k :: x :: xs else if k = x then x :: xs else x :: setInsert k xs

/-- Removal of an element from a set, returning whether it was present
(`BTreeSet::remove`). -/
def setRemove (k : Nat) : List Nat → Bool × List Nat
  | [] => (false, [])
  | x :: xs =>
    if k = x then (true, xs)
    else
      let r := setRemove k xs
      (r.1, x :: r.2)

/-- Extension of a set by the elements of a list (`BTreeSet::extend`). -/
def setExtendList (s : List Nat) (l : List Nat) : List Nat :=
  l.foldl (fun acc k => setInsert k acc) s

/-- Set collected from the elements of a list (`collect` into a `BTreeSet`). -/
def setFromList (l : List Nat) : List Nat := setExtendList [] l

/-- Error type of the session (`key_server_cluster::Error`, the variants this file
uses). `Panic` models a Rust panic raised by `debug_assert!` or `expect`. -/
inductive Error where
  | InvalidMessage
  | InvalidStateForRequest
  | InvalidNodesConfiguration
  | ReplayProtection
  | KeyStorage
  | TooEarlyForRequest
  | Panic
deriving DecidableEq, Repr

/-- Per-node persisted artifact of one distributed secret (`DocumentKeyShare`). -/
structure DocumentKeyShare where
  author : Nat
  threshold : Nat
  id_numbers : List (NodeId × Secret)
  polynom1 : List Nat
  secret_share : Nat
  common_point : Option Nat
  encrypted_point : Option Nat
deriving DecidableEq, Repr

/-- Immutable session metadata (`SessionMeta`). -/
structure SessionMeta where
  self_node_id : NodeId
  master_node_id : NodeId
  id : Nat
  threshold : Nat
deriving DecidableEq, Repr

/-- Immutable session data (`SessionCore`, without the transport and storage handles,
whose effects are returned explicitly by each handler). -/
structure SessionCore where
  meta : SessionMeta
  sub_session : Nat
  nonce : Nat
  key_share : Option DocumentKeyShare
deriving DecidableEq, Repr

/-- Share move session state (`SessionState`). -/
inductive SessionState where
  | WaitingForInitialization
  | WaitingForInitializationConfirm
  | WaitingForMoveConfirmation
  | Finished
deriving DecidableEq, Repr

/-- Mutable session data (`SessionData`). -/
structure SessionData where
  state : SessionState
  init_confirmations_to_receive : List NodeId
  move_confirmations_to_receive : List NodeId
  shares_to_move : List (NodeId × NodeId)
  received_key_share : Option DocumentKeyShare
deriving DecidableEq, Repr

/-- Fresh mutable session data, as built by `SessionImpl::new_nested`. -/
def newSessionData : SessionData :=
  { state := SessionState.WaitingForInitialization
    init_confirmations_to_receive := []
    move_confirmations_to_receive := []
    shares_to_move := []
    received_key_share := none }

/-- Payload of `InitializeShareMoveSession`. -/
structure InitializeShareMoveSessionMsg where
  session : Nat
  sub_session : Nat
  session_nonce : Nat
  shares_to_move : List (NodeId × NodeId)
deriving DecidableEq, Repr

/-- Payload of `ConfirmShareMoveInitialization`. -/
structure ConfirmShareMoveInitializationMsg where
  session : Nat
  sub_session : Nat
  session_nonce : Nat
deriving DecidableEq, Repr

/-- Payload of `ShareMoveRequest`. -/
structure ShareMoveRequestMsg where
  session : Nat
  sub_session : Nat
  session_nonce : Nat
deriving DecidableEq, Repr

/-- Payload of `ShareMove` (the full share record of the sending source node). -/
structure ShareMoveMsg where
  session : Nat
  sub_session : Nat
  session_nonce : Nat
  author : Nat
  threshold : Nat
  id_numbers : List (NodeId × Secret)
  polynom1 : List Nat
  secret_share : Nat
  common_point : Option Nat
  encrypted_point : Option Nat
deriving DecidableEq, Repr

/-- Payload of `ShareMoveConfirm`. -/
structure ShareMoveConfirmMsg where
  session : Nat
  sub_session : Nat
  session_nonce : Nat
deriving DecidableEq, Repr

/-- Payload of `ShareMoveError` (the error description is modelled as a number). -/
structure ShareMoveErrorMsg where
  session : Nat
  sub_session : Nat
  session_nonce : Nat
  error : Nat
deriving DecidableEq, Repr

/-- Protocol message of the share move session (`ShareMoveMessage`). -/
inductive ShareMoveMessage where
  | initializeShareMoveSession (m : InitializeShareMoveSessionMsg)
  | confirmShareMoveInitialization (m : ConfirmShareMoveInitializationMsg)
  | shareMoveRequest (m : ShareMoveRequestMsg)
  | shareMove (m : ShareMoveMsg)
  | shareMoveConfirm (m : ShareMoveConfirmMsg)
  | shareMoveError (m : ShareMoveErrorMsg)
deriving DecidableEq, Repr

/-- Session nonce carried by a message (`ShareMoveMessage::session_nonce`). -/
def ShareMoveMessage.session_nonce : ShareMoveMessage → Nat
  | .initializeShareMoveSession m => m.session_nonce
  | .confirmShareMoveInitialization m => m.session_nonce
  | .shareMoveRequest m => m.session_nonce
  | .shareMove m => m.session_nonce
  | .shareMoveConfirm m => m.session_nonce
  | .shareMoveError m => m.session_nonce

/-- Storage operation performed by a handler on this node's persisted record for the
session's key (`KeyStorage::remove` / `update` / `insert`). -/
inductive StorageOp where
  | remove
  | update (share : DocumentKeyShare)
  | insert (share : DocumentKeyShare)
deriving DecidableEq, Repr

deriving instance DecidableEq for Except

/-- Observable outcome of one handler call: the returned result, the mutable session
data as left by the call, the messages handed to the transport (in send order), and
the storage operations performed. -/
structure Outcome where
  result : Except Error Unit
  data : SessionData
  sent : List (NodeId × ShareMoveMessage)
  ops : List StorageOp
deriving DecidableEq, Repr

/-- Validation of a proposed source to destination mapping against the checking
node's local view of the current holders (`check_shares_to_move`). -/
def check_shares_to_move (self_node_id : NodeId) (shares_to_move : List (NodeId × NodeId))
    (id_numbers : Option (List (NodeId × Secret))) : Except Error Unit :=
  if shares_to_move.isEmpty then .error .InvalidMessage
  else
    let branch : Except Error Unit :=
      match id_numbers with
      | some ids =>
        if (keysOf shares_to_move).any (fun n => !(btreeContains n ids)) then
          .error .InvalidNodesConfiguration
        else if (valsOf shares_to_move).any (fun n => btreeContains n ids) then
          .error .InvalidNodesConfiguration
        else .ok ()
      | none =>
        if btreeContains self_node_id shares_to_move then .error .InvalidMessage
        else if !((valsOf shares_to_move).any (fun n => n = self_node_id)) then
          .error .InvalidMessage
        else .ok ()
    match branch with
    | .error e => .error e
    | .ok () =>
      if (setFromList (valsOf shares_to_move)).length ≠ shares_to_move.length then
        .error .InvalidNodesConfiguration
      else .ok ()

/-- Share record carried by a `ShareMove` message, as rebuilt by the receiver. -/
def share_from_message (message : ShareMoveMsg) : DocumentKeyShare :=
  { author := message.author
    threshold := message.threshold
    id_numbers := message.id_numbers
    polynom1 := message.polynom1
    secret_share := message.secret_share
    common_point := message.common_point
    encrypted_point := message.encrypted_point }

/-- Share move message built from this node's own record (`move_share`). -/
def move_share_message (core : SessionCore) (key_share : DocumentKeyShare) : ShareMoveMsg :=
  { session := core.meta.id
    sub_session := core.sub_session
    session_nonce := core.nonce
    author := key_share.author
    threshold := key_share.threshold
    id_numbers := key_share.id_numbers
    polynom1 := key_share.polynom1
    secret_share := key_share.secret_share
    common_point := key_share.common_point
    encrypted_point := key_share.encrypted_point }

/-- Relocation loop of `complete_session`: for every `(source, target)` pair of the
mapping, in map order, remove the `id_numbers` entry of `source` and insert its
value under `target`; `none` models the `expect` panic when a source has no entry. -/
def move_id_numbers : List (NodeId × NodeId) → List (NodeId × Secret) →
    Option (List (NodeId × Secret))
  | [], ids => some ids
  | (source_node, target_node) :: rest, ids =>
    match btreeRemove source_node ids with
    | (none, _) => none
    | (some id_number, ids₀) => move_id_numbers rest (btreeInsert target_node id_number ids₀)

/-- Record taken by `complete_session` on a non-source node: the received record if
this node is a destination, this node's own record otherwise. -/
def effective_share (core : SessionCore) (data : SessionData) : Option DocumentKeyShare :=
  match data.received_key_share with
  | some ks => some ks
  | none => core.key_share

/-- Completion on this node once its move-outstanding set has emptied
(`complete_session`). -/
def complete_session (core : SessionCore) (data : SessionData) : Outcome :=
  if btreeContains core.meta.self_node_id data.shares_to_move then
    { result := .ok (), data := data, sent := [], ops := [.remove] }
  else
    let is_old_node := data.received_key_share.isNone
    match effective_share core data with
    | none => { result := .error .Panic, data := data, sent := [], ops := [] }
    | some key_share =>
      let data' := { data with received_key_share := none }
      match move_id_numbers data.shares_to_move key_share.id_numbers with
      | none => { result := .error .Panic, data := data', sent := [], ops := [] }
      | some ids' =>
        { result := .ok ()
          data := data'
          sent := []
          ops := [(if is_old_node then StorageOp.update else StorageOp.insert)
                    { key_share with id_numbers := ids' }] }

/-- Master entry point (the source's initialize method): validates the mapping,
records it, computes the outstanding sets and proposes the session to every node of
the init set. -/
def initializeSession (core : SessionCore) (data : SessionData)
    (shares_to_move : List (NodeId × NodeId)) : Outcome :=
  if core.meta.self_node_id ≠ core.meta.master_node_id then
    { result := .error .Panic, data := data, sent := [], ops := [] }
  else
    match core.key_share with
    | none => { result := .error .Panic, data := data, sent := [], ops := [] }
    | some old_key_share =>
      match check_shares_to_move core.meta.self_node_id shares_to_move
          (some old_key_share.id_numbers) with
      | .error e => { result := .error e, data := data, sent := [], ops := [] }
      | .ok () =>
        if data.state ≠ SessionState.WaitingForInitialization then
          { result := .error .InvalidStateForRequest, data := data, sent := [], ops := [] }
        else
          let shares' := btreeExtendMap data.shares_to_move shares_to_move
          let move' := setExtendList data.move_confirmations_to_receive (valsOf shares')
          let init' := (setRemove core.meta.self_node_id
            (setExtendList data.init_confirmations_to_receive
              (keysOf old_key_share.id_numbers ++ valsOf shares_to_move))).2
          let data' := { data with
            state := SessionState.WaitingForInitializationConfirm
            shares_to_move := shares'
            move_confirmations_to_receive := move'
            init_confirmations_to_receive := init' }
          { result := .ok ()
            data := data'
            sent := init'.map (fun n => (n, ShareMoveMessage.initializeShareMoveSession
              { session := core.meta.id
                sub_session := core.sub_session
                session_nonce := core.nonce
                shares_to_move := shares_to_move }))
            ops := [] }

/-- Peer handler for the initialization proposal (`on_initialize_session`). -/
def on_initialize_session (core : SessionCore) (data : SessionData) (sender : NodeId)
    (message : InitializeShareMoveSessionMsg) : Outcome :=
  if ¬ (core.meta.id = message.session ∧ core.sub_session = message.sub_session ∧
      sender ≠ core.meta.self_node_id) then
    { result := .error .Panic, data := data, sent := [], ops := [] }
  else if sender ≠ core.meta.master_node_id then
    { result := .error .InvalidMessage, data := data, sent := [], ops := [] }
  else
    let shares_to_move := message.shares_to_move
    match check_shares_to_move core.meta.self_node_id shares_to_move
        (core.key_share.map (fun ks => ks.id_numbers)) with
    | .error e => { result := .error e, data := data, sent := [], ops := [] }
    | .ok () =>
      let consistency : Except Error Unit :=
        match btreeLookup core.meta.self_node_id shares_to_move with
        | some _ => if core.key_share.isSome then .ok () else .error .InvalidMessage
        | none =>
          if (valsOf shares_to_move).any (fun n => n = core.meta.self_node_id) &&
              core.key_share.isSome then
            .error .InvalidMessage
          else .ok ()
      match consistency with
      | .error e => { result := .error e, data := data, sent := [], ops := [] }
      | .ok () =>
        if data.state ≠ SessionState.WaitingForInitialization then
          { result := .error .InvalidStateForRequest, data := data, sent := [], ops := [] }
        else
          let shares' := btreeExtendMap data.shares_to_move shares_to_move
          let move' := setExtendList data.move_confirmations_to_receive (valsOf shares')
          let data' := { data with
            state := SessionState.WaitingForMoveConfirmation
            shares_to_move := shares'
            move_confirmations_to_receive := move' }
          { result := .ok ()
            data := data'
            sent := [(sender, ShareMoveMessage.confirmShareMoveInitialization
              { session := core.meta.id
                sub_session := core.sub_session
                session_nonce := core.nonce })]
            ops := [] }

/-- Master handler for an initialization confirmation (`on_confirm_initialization`). -/
def on_confirm_initialization (core : SessionCore) (data : SessionData) (sender : NodeId)
    (message : ConfirmShareMoveInitializationMsg) : Outcome :=
  if ¬ (core.meta.id = message.session ∧ core.sub_session = message.sub_session ∧
      sender ≠ core.meta.self_node_id) then
    { result := .error .Panic, data := data, sent := [], ops := [] }
  else if core.meta.self_node_id ≠ core.meta.master_node_id then
    { result := .error .InvalidMessage, data := data, sent := [], ops := [] }
  else if data.state ≠ SessionState.WaitingForInitializationConfirm then
    { result := .error .InvalidStateForRequest, data := data, sent := [], ops := [] }
  else
    let removal := setRemove sender data.init_confirmations_to_receive
    let data₁ := { data with init_confirmations_to_receive := removal.2 }
    if removal.1 = false then
      { result := .error .InvalidMessage, data := data₁, sent := [], ops := [] }
    else if ¬ data₁.init_confirmations_to_receive.isEmpty then
      { result := .ok (), data := data₁, sent := [], ops := [] }
    else
      let data₂ := { data₁ with state := SessionState.WaitingForMoveConfirmation }
      let requests := ((keysOf data₂.shares_to_move).filter
        (fun n => n ≠ core.meta.self_node_id)).map
        (fun n => (n, ShareMoveMessage.shareMoveRequest
          { session := core.meta.id
            sub_session := core.sub_session
            session_nonce := core.nonce }))
      match btreeLookup core.meta.self_node_id data₂.shares_to_move with
      | none => { result := .ok (), data := data₂, sent := requests, ops := [] }
      | some share_destination =>
        match core.key_share with
        | none => { result := .error .Panic, data := data₂, sent := requests, ops := [] }
        | some key_share =>
          { result := .ok ()
            data := data₂
            sent := requests ++ [(share_destination,
              ShareMoveMessage.shareMove (move_share_message core key_share))]
            ops := [] }

/-- Source handler for a share move request (`on_share_move_request`). -/
def on_share_move_request (core : SessionCore) (data : SessionData) (sender : NodeId)
    (message : ShareMoveRequestMsg) : Outcome :=
  if ¬ (core.meta.id = message.session ∧ core.sub_session = message.sub_session ∧
      sender ≠ core.meta.self_node_id) then
    { result := .error .Panic, data := data, sent := [], ops := [] }
  else if sender ≠ core.meta.master_node_id then
    { result := .error .InvalidMessage, data := data, sent := [], ops := [] }
  else if data.state ≠ SessionState.WaitingForMoveConfirmation then
    { result := .error .InvalidStateForRequest, data := data, sent := [], ops := [] }
  else
    match btreeLookup core.meta.self_node_id data.shares_to_move with
    | some share_destination =>
      match core.key_share with
      | none => { result := .error .Panic, data := data, sent := [], ops := [] }
      | some key_share =>
        { result := .ok ()
          data := data
          sent := [(share_destination,
            ShareMoveMessage.shareMove (move_share_message core key_share))]
          ops := [] }
    | none => { result := .error .InvalidMessage, data := data, sent := [], ops := [] }

/-- Destination handler for the delivery of a moving share (`on_share_move`). -/
def on_share_move (core : SessionCore) (data : SessionData) (sender : NodeId)
    (message : ShareMoveMsg) : Outcome :=
  if ¬ (core.meta.id = message.session ∧ core.sub_session = message.sub_session ∧
      sender ≠ core.meta.self_node_id) then
    { result := .error .Panic, data := data, sent := [], ops := [] }
  else if data.state ≠ SessionState.WaitingForMoveConfirmation then
    { result := .error .InvalidStateForRequest, data := data, sent := [], ops := [] }
  else if btreeLookup sender data.shares_to_move ≠ some core.meta.self_node_id then
    { result := .error .InvalidMessage, data := data, sent := [], ops := [] }
  else
    let data₁ := { data with
      move_confirmations_to_receive :=
        (setRemove core.meta.self_node_id data.move_confirmations_to_receive).2
      received_key_share := some (share_from_message message) }
    let all_nodes_set := setFromList
      (valsOf data₁.shares_to_move ++ keysOf message.id_numbers)
    let confirmations := (all_nodes_set.filter (fun n => n ≠ core.meta.self_node_id)).map
      (fun n => (n, ShareMoveMessage.shareMoveConfirm
        { session := core.meta.id
          sub_session := core.sub_session
          session_nonce := core.nonce }))
    if data₁.move_confirmations_to_receive.isEmpty then
      let c := complete_session core data₁
      { result := c.result, data := c.data, sent := confirmations ++ c.sent, ops := c.ops }
    else
      { result := .ok (), data := data₁, sent := confirmations, ops := [] }

/-- Handler for a move confirmation (`on_share_move_confirmation`). -/
def on_share_move_confirmation (core : SessionCore) (data : SessionData) (sender : NodeId)
    (message : ShareMoveConfirmMsg) : Outcome :=
  if ¬ (core.meta.id = message.session ∧ core.sub_session = message.sub_session ∧
      sender ≠ core.meta.self_node_id) then
    { result := .error .Panic, data := data, sent := [], ops := [] }
  else if data.state ≠ SessionState.WaitingForMoveConfirmation then
    { result := .error .InvalidStateForRequest, data := data, sent := [], ops := [] }
  else
    let removal := setRemove sender data.move_confirmations_to_receive
    let data₁ := { data with move_confirmations_to_receive := removal.2 }
    if removal.1 = false then
      { result := .error .InvalidMessage, data := data₁, sent := [], ops := [] }
    else if data₁.move_confirmations_to_receive.isEmpty then
      complete_session core data₁
    else
      { result := .ok (), data := data₁, sent := [], ops := [] }

/-- Handler for a session error reported by another node (`on_session_error`). -/
def on_session_error (core : SessionCore) (data : SessionData) (sender : NodeId)
    (message : ShareMoveErrorMsg) : Outcome :=
  { result := .ok ()
    data := { data with state := SessionState.Finished }
    sent := []
    ops := [] }

/-- Single entry point for all inbound protocol messages (`process_message`): checks
the replay-protection nonce, then dispatches on the message kind. -/
def process_message (core : SessionCore) (data : SessionData) (sender : NodeId)
    (message : ShareMoveMessage) : Outcome :=
  if core.nonce ≠ message.session_nonce then
    { result := .error .ReplayProtection, data := data, sent := [], ops := [] }
  else
    match message with
    | .initializeShareMoveSession m => on_initialize_session core data sender m
    | .confirmShareMoveInitialization m => on_confirm_initialization core data sender m
    | .shareMoveRequest m => on_share_move_request core data sender m
    | .shareMove m => on_share_move core data sender m
    | .shareMoveConfirm m => on_share_move_confirmation core data sender m
    | .shareMoveError m => on_session_error core data sender m

/-- Lifecycle hook: true iff the session state is terminal (`is_finished`). -/
def is_finished (data : SessionData) : Bool :=
  match data.state with
  | SessionState.Finished => true
  | _ => false

/-- One cluster participant of the message-loop model: its session and its persisted
record for this session's key (the tests' `Node` with its `DummyKeyStorage`). -/
structure ClusterNode where
  core : SessionCore
  data : SessionData
  storage : Option DocumentKeyShare
deriving DecidableEq, Repr

/-- Application of a handler's storage operations to a node's persisted record. -/
def applyOps (st : Option DocumentKeyShare) : List StorageOp → Option DocumentKeyShare
  | [] => st
  | StorageOp.remove :: rest => applyOps none rest
  | StorageOp.update s :: rest => applyOps (some s) rest
  | StorageOp.insert s :: rest => applyOps (some s) rest

/-- Whole-cluster state of the message-loop model (the tests' `MessageLoop`): the
nodes, the in-flight messages as (sender, recipient, message) triples, and a flag
recording that every handler call so far returned successfully. -/
structure World where
  nodes : List (NodeId × ClusterNode)
  queue : List (NodeId × NodeId × ShareMoveMessage)
  ok : Bool
deriving DecidableEq, Repr

/-- Delivery of the first in-flight message to its recipient. -/
def deliver (w : World) : World :=
  match w.queue with
  | [] => w
  | (src, dst, msg) :: rest =>
    match btreeLookup dst w.nodes with
    | none => { w with queue := rest, ok := false }
    | some node =>
      let o := process_message node.core node.data src msg
      let node' := { node with data := o.data, storage := applyOps node.storage o.ops }
      { nodes := btreeInsert dst node' w.nodes
        queue := rest ++ o.sent.map (fun p => (dst, p.1, p.2))
        ok := w.ok && (match o.result with | .ok _ => true | .error _ => false) }

/-- Repeated delivery of in-flight messages. -/
def runWorld : Nat → World → World
  | 0, w => w
  | fuel + 1, w => runWorld fuel (deliver w)

/-- Common id_numbers of the scenario's two initial holders: node 0 at evaluation
point 10, node 1 at evaluation point 11. -/
def scenarioIds : List (NodeId × Secret) := [(0, 10), (1, 11)]

/-- Share record persisted on scenario node 0 (the master). -/
def shareA : DocumentKeyShare :=
  { author := 100, threshold := 1, id_numbers := scenarioIds, polynom1 := [21, 22],
    secret_share := 30, common_point := some 41, encrypted_point := some 51 }

/-- Share record persisted on scenario node 1 (the moving source). -/
def shareB : DocumentKeyShare := { shareA with secret_share := 31 }

/-- Session metadata of the scenario for a given self node. -/
def scenarioMeta (self : NodeId) : SessionMeta :=
  { self_node_id := self, master_node_id := 0, id := 9, threshold := 1 }

/-- Immutable session data of a scenario node. -/
def scenarioCore (self : NodeId) (ks : Option DocumentKeyShare) : SessionCore :=
  { meta := scenarioMeta self, sub_session := 7, nonce := 5, key_share := ks }

/-- Scenario mapping: the share of node 1 moves to the joining node 3. -/
def scenarioMapping : List (NodeId × NodeId) := [(1, 3)]

/-- Outcome of the master calling initialize in the scenario. -/
def scenarioInit : Outcome := initializeSession (scenarioCore 0 (some shareA))
  newSessionData scenarioMapping

/-- Scenario cluster just after the master initialized the session: nodes 0 and 1
hold shares, node 3 joins without one; the proposals are in flight. -/
def scenarioWorld : World :=
  { nodes := [
      (0, { core := scenarioCore 0 (some shareA), data := scenarioInit.data,
            storage := some shareA }),
      (1, { core := scenarioCore 1 (some shareB), data := newSessionData,
            storage := some shareB }),
      (3, { core := scenarioCore 3 none, data := newSessionData, storage := none })]
    queue := scenarioInit.sent.map (fun p => (0, p.1, p.2))
    ok := (match scenarioInit.result with | .ok _ => true | .error _ => false) }

/-- Scenario cluster after the whole message exchange has run to completion. -/
def scenarioFinal : World := runWorld 12 scenarioWorld

/-- Common id_numbers of a three-holder configuration, used to exercise validation. -/
def idsThree : List (NodeId × Secret) := [(0, 10), (1, 11), (2, 12)]

/-- Share record of the master in the three-holder configuration. -/
def shareThree : DocumentKeyShare := { shareA with id_numbers := idsThree }

/-- Keys of an association list are strictly increasing (the `BTreeMap` shape
invariant). -/
def SortedKeys (l : List (Nat × α)) : Prop :=
  l.Pairwise (fun a b => a.1 < b.1)

/-- Keys of an association list are pairwise distinct. -/
def NodupKeys (l : List (Nat × α)) : Prop :=
  l.Pairwise (fun a b => a.1 ≠ b.1)

/-- Structural validity of a mapping relative to a record's id_numbers, as
established by validation on every participant: every source is a current holder, no
destination is a current holder, and the sources and the destinations are each
pairwise distinct. -/
def ValidMove (m : List (NodeId × NodeId)) (ids : List (NodeId × Secret)) : Prop :=
  SortedKeys ids ∧
  (∀ p ∈ m, p.1 ∈ ids.map Prod.fst) ∧
  (∀ p ∈ m, p.2 ∉ ids.map Prod.fst) ∧
  (m.map Prod.fst).Nodup ∧
  (m.map Prod.snd).Nodup

/-- Session data of a scenario participant that reached the move-confirmation stage
and still awaits the destination's confirmation. -/
def dataMoveWaiting : SessionData :=
  { state := SessionState.WaitingForMoveConfirmation
    init_confirmations_to_receive := []
    move_confirmations_to_receive := [3]
    shares_to_move := [(1, 3)]
    received_key_share := none }

/-- Session data of the scenario destination node right after its first received
delivery was processed and completion ran. -/
def dataAfterDelivery : SessionData :=
  { state := SessionState.WaitingForMoveConfirmation
    init_confirmations_to_receive := []
    move_confirmations_to_receive := []
    shares_to_move := [(1, 3)]
    received_key_share := none }

/-- Lookup after an ordered insertion: the inserted key is found, others unchanged. -/
theorem btreeLookup_insert (k d : Nat) (v : α) (l : List (Nat × α)) :
    btreeLookup k (btreeInsert d v l) = if k = d then some v else btreeLookup k l := by
  induction l with
  | nil => simp [btreeInsert, btreeLookup]
  | cons p rest ih =>
    obtain ⟨k₀, v₀⟩ := p
    by_cases h1 : d < k₀
    · by_cases h2 : k = d <;> simp [btreeInsert, btreeLookup, h1, h2]
    · by_cases h2 : d = k₀
      · subst h2
        by_cases h3 : k = d <;> simp [btreeInsert, btreeLookup, h1, h3]
      · by_cases h3 : k = k₀
        · subst h3
          have hkd : k ≠ d := fun h => h2 h.symm
          simp [btreeInsert, btreeLookup, h1, h2, hkd]
        · simp [btreeInsert, btreeLookup, h1, h2, h3, ih]

/-- The removed value is the looked-up value. -/
theorem btreeRemove_fst (k : Nat) (l : List (Nat × α)) :
    (btreeRemove k l).1 = btreeLookup k l := by
  induction l with
  | nil => simp [btreeRemove, btreeLookup]
  | cons p rest ih =>
    obtain ⟨k₀, v₀⟩ := p
    by_cases h : k = k₀ <;> simp [btreeRemove, btreeLookup, h, ih]

/-- Removal of one key does not change the lookup of another. -/
theorem btreeLookup_remove_ne (k s : Nat) (l : List (Nat × α)) (h : k ≠ s) :
    btreeLookup k (btreeRemove s l).2 = btreeLookup k l := by
  induction l with
  | nil => simp [btreeRemove]
  | cons p rest ih =>
    obtain ⟨k₀, v₀⟩ := p
    by_cases h1 : s = k₀
    · subst h1
      have : k ≠ s := h
      simp [btreeRemove, btreeLookup, this]
    · by_cases h2 : k = k₀ <;> simp [btreeRemove, btreeLookup, h1, h2, ih]

/-- The removal result is a sublist of the original list. -/
theorem btreeRemove_sublist (k : Nat) (l : List (Nat × α)) :
    List.Sublist (btreeRemove k l).2 l := by
  induction l with
  | nil => simp [btreeRemove]
  | cons p rest ih =>
    obtain ⟨k₀, v₀⟩ := p
    by_cases h : k = k₀
    · simp [btreeRemove, h]
    · simpa [btreeRemove, h] using List.Sublist.cons₂ (k₀, v₀) ih

/-- A lookup fails exactly when the key is absent. -/
theorem btreeLookup_eq_none_iff (k : Nat) (l : List (Nat × α)) :
    btreeLookup k l = none ↔ k ∉ l.map Prod.fst := by
  induction l with
  | nil => simp [btreeLookup]
  | cons p rest ih =>
    obtain ⟨k₀, v₀⟩ := p
    by_cases h : k = k₀ <;> simp [btreeLookup, h, ih]

/-- Key-containment agrees with membership in the key list. -/
theorem btreeContains_iff (k : Nat) (l : List (Nat × α)) :
    btreeContains k l = true ↔ k ∈ l.map Prod.fst := by
  rw [btreeContains, Option.isSome_iff_ne_none, ne_eq, btreeLookup_eq_none_iff]
  simp

/-- Sorted keys are pairwise distinct. -/
theorem SortedKeys.nodupKeys {l : List (Nat × α)} (h : SortedKeys l) : NodupKeys l :=
  h.imp (fun hlt => Nat.ne_of_lt hlt)

/-- After removing a key from a duplicate-free association list, its lookup fails. -/
theorem btreeLookup_remove_self (s : Nat) (l : List (Nat × α)) (h : NodupKeys l) :
    btreeLookup s (btreeRemove s l).2 = none := by
  simp only [NodupKeys] at h
  induction l with
  | nil => simp [btreeRemove, btreeLookup]
  | cons p rest ih =>
    obtain ⟨k₀, v₀⟩ := p
    obtain ⟨hhead, htail⟩ := List.pairwise_cons.1 h
    by_cases h1 : s = k₀
    · subst h1
      simp only [btreeRemove, if_pos rfl]
      rw [btreeLookup_eq_none_iff]
      intro hmem
      obtain ⟨q, hq, hq2⟩ := List.mem_map.1 hmem
      exact hhead q hq hq2.symm
    · simp [btreeRemove, btreeLookup, h1, ih htail]

/-- Every element of an insertion result comes from the list or is the new entry. -/
theorem mem_btreeInsert {q : Nat × α} {k : Nat} {v : α} {l : List (Nat × α)}
    (h : q ∈ btreeInsert k v l) : q ∈ l ∨ q = (k, v) := by
  induction l with
  | nil => simpa [btreeInsert] using h
  | cons p rest ih =>
    obtain ⟨k₀, v₀⟩ := p
    by_cases h1 : k < k₀
    · simp only [btreeInsert, h1, if_pos] at h
      rcases List.mem_cons.1 h with h2 | h2
      · exact Or.inr h2
      · exact Or.inl h2
    · by_cases h2 : k = k₀
      · subst h2
        simp only [btreeInsert, if_neg h1, if_pos rfl] at h
        rcases List.mem_cons.1 h with h3 | h3
        · exact Or.inr h3
        · exact Or.inl (List.mem_cons_of_mem _ h3)
      · simp only [btreeInsert, if_neg h1, if_neg h2] at h
        rcases List.mem_cons.1 h with h3 | h3
        · exact Or.inl (by rw [h3]; exact List.mem_cons_self _ _)
        · rcases ih h3 with h4 | h4
          · exact Or.inl (List.mem_cons_of_mem _ h4)
          · exact Or.inr h4

/-- Ordered insertion preserves sortedness of keys. -/
theorem SortedKeys.insert {l : List (Nat × α)} (h : SortedKeys l) (k : Nat) (v : α) :
    SortedKeys (btreeInsert k v l) := by
  simp only [SortedKeys] at h ⊢
  induction l with
  | nil => simp [btreeInsert]
  | cons p rest ih =>
    obtain ⟨k₀, v₀⟩ := p
    obtain ⟨hhead, htail⟩ := List.pairwise_cons.1 h
    by_cases h1 : k < k₀
    · simp only [btreeInsert, h1, if_pos]
      refine List.pairwise_cons.2 ⟨?_, h⟩
      intro q hq
      rcases List.mem_cons.1 hq with h2 | h2
      · rw [h2]; exact h1
      · exact Nat.lt_trans h1 (hhead q h2)
    · by_cases h2 : k = k₀
      · subst h2
        simp only [btreeInsert, if_neg h1, if_pos rfl]
        exact List.pairwise_cons.2 ⟨hhead, htail⟩
      · have h3 : k₀ < k := by omega
        simp only [btreeInsert, if_neg h1, if_neg h2]
        refine List.pairwise_cons.2 ⟨?_, ih htail⟩
        intro q hq
        rcases (mem_btreeInsert hq) with h4 | h4
        · exact hhead q h4
        · rw [h4]; exact h3

/-- Removal preserves sortedness of keys. -/
theorem SortedKeys.remove {l : List (Nat × α)} (h : SortedKeys l) (k : Nat) :
    SortedKeys (btreeRemove k l).2 := by
  simp only [SortedKeys] at h ⊢
  exact h.sublist (btreeRemove_sublist k l)

/-- Membership in a set after an ordered insertion. -/
theorem mem_setInsert (a k : Nat) (s : List Nat) :
    a ∈ setInsert k s ↔ a = k ∨ a ∈ s := by
  induction s with
  | nil => simp [setInsert]
  | cons x xs ih =>
    by_cases h1 : k < x
    · simp [setInsert, h1]
    · by_cases h2 : k = x
      · subst h2
        simp only [setInsert, if_neg h1, if_pos rfl]
        constructor
        · intro h; exact Or.inr h
        · intro h; rcases h with h | h
          · rw [h]; exact List.mem_cons_self _ _
          · exact h
      · simp only [setInsert, if_neg h1, if_neg h2, List.mem_cons, ih]
        tauto

/-- Ordered insertion preserves strict sortedness of a set. -/
theorem sorted_setInsert (k : Nat) {s : List Nat}
    (h : s.Pairwise (fun a b => a < b)) :
    (setInsert k s).Pairwise (fun a b => a < b) := by
  induction s with
  | nil => simp [setInsert]
  | cons x xs ih =>
    obtain ⟨hhead, htail⟩ := List.pairwise_cons.1 h
    by_cases h1 : k < x
    · simp only [setInsert, if_pos h1]
      refine List.pairwise_cons.2 ⟨?_, h⟩
      intro b hb
      rcases List.mem_cons.1 hb with h2 | h2
      · rw [h2]; exact h1
      · exact Nat.lt_trans h1 (hhead b h2)
    · by_cases h2 : k = x
      · subst h2
        simp only [setInsert, if_neg h1, if_pos rfl]
        exact h
      · have h3 : x < k := by omega
        simp only [setInsert, if_neg h1, if_neg h2]
        refine List.pairwise_cons.2 ⟨?_, ih htail⟩
        intro b hb
        rcases (mem_setInsert b k xs).1 hb with h4 | h4
        · rw [h4]; exact h3
        · exact hhead b h4

/-- Removing an absent element leaves a set unchanged and reports failure. -/
theorem setRemove_of_not_mem {k : Nat} {s : List Nat} (h : k ∉ s) :
    setRemove k s = (false, s) := by
  induction s with
  | nil => simp [setRemove]
  | cons x xs ih =>
    have h1 : k ≠ x := fun he => h (by rw [he]; exact List.mem_cons_self _ _)
    have h2 : k ∉ xs := fun hm => h (List.mem_cons_of_mem _ hm)
    simp [setRemove, h1, ih h2]

/-- Membership after removal from a duplicate-free set. -/
theorem mem_setRemove {a k : Nat} {s : List Nat} (hnd : s.Nodup) :
    a ∈ (setRemove k s).2 ↔ a ∈ s ∧ a ≠ k := by
  induction s with
  | nil => simp [setRemove]
  | cons x xs ih =>
    obtain ⟨hhead, htail⟩ := List.pairwise_cons.1 hnd
    by_cases h1 : k = x
    · subst h1
      simp only [setRemove, if_pos rfl]
      constructor
      · intro h
        exact ⟨List.mem_cons_of_mem _ h, fun he => hhead a h he.symm⟩
      · intro ⟨h2, h3⟩
        rcases List.mem_cons.1 h2 with h4 | h4
        · exact absurd h4 h3
        · exact h4
    · simp only [setRemove, if_neg h1, List.mem_cons, ih htail]
      constructor
      · intro h
        rcases h with h | ⟨h2, h3⟩
        · exact ⟨Or.inl h, by rw [h]; exact fun he => h1 he.symm⟩
        · exact ⟨Or.inr h2, h3⟩
      · intro ⟨h2, h3⟩
        rcases h2 with h4 | h4
        · exact Or.inl h4
        · exact Or.inr ⟨h4, h3⟩

/-- Membership in a set extended by a list of elements. -/
theorem mem_setExtendList (a : Nat) (s l : List Nat) :
    a ∈ setExtendList s l ↔ a ∈ s ∨ a ∈ l := by
  induction l generalizing s with
  | nil => simp [setExtendList]
  | cons x xs ih =>
    simp only [setExtendList, List.foldl_cons] at *
    rw [ih (setInsert x s), mem_setInsert]
    simp only [List.mem_cons]
    tauto

/-- Extension by a list preserves strict sortedness of a set. -/
theorem sorted_setExtendList {s : List Nat} (l : List Nat)
    (h : s.Pairwise (fun a b => a < b)) :
    (setExtendList s l).Pairwise (fun a b => a < b) := by
  induction l generalizing s with
  | nil => exact h
  | cons x xs ih => exact ih (sorted_setInsert x h)

/-- A strictly sorted set is duplicate-free. -/
theorem nodup_of_sorted {s : List Nat} (h : s.Pairwise (fun a b => a < b)) :
    s.Nodup :=
  h.imp (fun hlt => Nat.ne_of_lt hlt)

/-- Key membership restated through lookup. -/
theorem mem_keys_iff_lookup (k : Nat) (l : List (Nat × α)) :
    k ∈ l.map Prod.fst ↔ btreeLookup k l ≠ none := by
  rw [ne_eq, btreeLookup_eq_none_iff, not_not]

/-- Length of an ordered insertion into a sorted set. -/
theorem length_setInsert {s : List Nat} (hs : s.Pairwise (fun a b => a < b)) (k : Nat) :
    (setInsert k s).length = if k ∈ s then s.length else s.length + 1 := by
  induction s with
  | nil => simp [setInsert]
  | cons x xs ih =>
    obtain ⟨hhead, htail⟩ := List.pairwise_cons.1 hs
    by_cases h1 : k < x
    · have h2 : k ∉ x :: xs := by
        intro hm
        rcases List.mem_cons.1 hm with h3 | h3
        · omega
        · exact absurd (hhead k h3) (by omega)
      simp [setInsert, h1, h2]
    · by_cases h2 : k = x
      · subst h2
        simp [setInsert, h1]
      · simp only [setInsert, if_neg h1, if_neg h2, List.length_cons, List.mem_cons,
          ih htail]
        by_cases h3 : k ∈ xs <;> simp [h3, h2]

/-- Extending a sorted set by a list grows it by at most the list's length. -/
theorem length_setExtendList_le (l : List Nat) {s : List Nat}
    (hs : s.Pairwise (fun a b => a < b)) :
    (setExtendList s l).length ≤ s.length + l.length := by
  induction l generalizing s with
  | nil => simp [setExtendList]
  | cons x xs ih =>
    have h1 : (setExtendList (setInsert x s) xs).length ≤
        (setInsert x s).length + xs.length := ih (sorted_setInsert x hs)
    have h2 : (setInsert x s).length ≤ s.length + 1 := by
      rw [length_setInsert hs x]
      by_cases h3 : x ∈ s <;> simp [h3]
    calc (setExtendList s (x :: xs)).length
        = (setExtendList (setInsert x s) xs).length := rfl
      _ ≤ (setInsert x s).length + xs.length := h1
      _ ≤ s.length + 1 + xs.length := by omega
      _ = s.length + (x :: xs).length := by rw [List.length_cons]; omega

/-- Extending a sorted set by a list with a repetition, or by a list meeting the
set, grows it by strictly less than the list's length. -/
theorem length_setExtendList_lt {l : List Nat} {s : List Nat}
    (hs : s.Pairwise (fun a b => a < b))
    (h : ¬ l.Nodup ∨ ∃ a ∈ l, a ∈ s) :
    (setExtendList s l).length < s.length + l.length := by
  induction l generalizing s with
  | nil =>
    rcases h with h | h
    · exact absurd List.nodup_nil h
    · obtain ⟨a, ha, _⟩ := h
      exact absurd ha (List.not_mem_nil a)
  | cons x xs ih =>
    have hs' := sorted_setInsert x hs
    by_cases hx : x ∈ s
    · have h1 : (setInsert x s).length = s.length := by
        rw [length_setInsert hs x, if_pos hx]
      have h2 := length_setExtendList_le xs hs'
      calc (setExtendList s (x :: xs)).length
          = (setExtendList (setInsert x s) xs).length := rfl
        _ ≤ (setInsert x s).length + xs.length := h2
        _ = s.length + xs.length := by rw [h1]
        _ < s.length + (x :: xs).length := by rw [List.length_cons]; omega
    · have h1 : (setInsert x s).length = s.length + 1 := by
        rw [length_setInsert hs x, if_neg hx]
      have hnext : ¬ xs.Nodup ∨ ∃ a ∈ xs, a ∈ setInsert x s := by
        rcases h with h | h
        · rw [List.nodup_cons] at h
          push_neg at h
          by_cases h2 : x ∈ xs
          · exact Or.inr ⟨x, h2, (mem_setInsert x x s).2 (Or.inl rfl)⟩
          · exact Or.inl (h h2)
        · obtain ⟨a, ha, has⟩ := h
          rcases List.mem_cons.1 ha with h2 | h2
          · exact absurd (h2 ▸ has) hx
          · exact Or.inr ⟨a, h2, (mem_setInsert a x s).2 (Or.inr has)⟩
      calc (setExtendList s (x :: xs)).length
          = (setExtendList (setInsert x s) xs).length := rfl
        _ < (setInsert x s).length + xs.length := ih hs' hnext
        _ = s.length + (x :: xs).length := by rw [h1, List.length_cons]; omega

/-- Insertion of a key above every key of a sorted list appends the entry. -/
theorem btreeInsert_append {l : List (Nat × α)} (k : Nat) (v : α)
    (h : ∀ p ∈ l, p.1 < k) : btreeInsert k v l = l ++ [(k, v)] := by
  induction l with
  | nil => simp [btreeInsert]
  | cons p rest ih =>
    obtain ⟨k₀, v₀⟩ := p
    have h1 : k₀ < k := h (k₀, v₀) (List.mem_cons_self _ _)
    have h2 : ¬ k < k₀ := by omega
    have h3 : k ≠ k₀ := by omega
    simp only [btreeInsert, if_neg h2, if_neg h3, List.cons_append]
    rw [ih (fun q hq => h q (List.mem_cons_of_mem _ hq))]

/-- Extension of a sorted map by entries all above its keys is concatenation. -/
theorem btreeExtendMap_of_sorted {new base : List (Nat × α)}
    (h : SortedKeys (base ++ new)) : btreeExtendMap base new = base ++ new := by
  induction new generalizing base with
  | nil => simp [btreeExtendMap]
  | cons p rest ih =>
    obtain ⟨k, v⟩ := p
    have h3 := (List.pairwise_append.1 h).2.2
    have hlt : ∀ q ∈ base, q.1 < k :=
      fun q hq => h3 q hq (k, v) (List.mem_cons_self _ _)
    have hassoc : base ++ (k, v) :: rest = (base ++ [(k, v)]) ++ rest := by simp
    have h' : SortedKeys ((base ++ [(k, v)]) ++ rest) := by
      rw [← hassoc]; exact h
    calc btreeExtendMap base ((k, v) :: rest)
        = btreeExtendMap (btreeInsert k v base) rest := rfl
      _ = btreeExtendMap (base ++ [(k, v)]) rest := by rw [btreeInsert_append k v hlt]
      _ = (base ++ [(k, v)]) ++ rest := ih h'
      _ = base ++ (k, v) :: rest := by simp

/-- Relocation loop specification: on a valid mapping the loop succeeds, each
destination picks up exactly its source's evaluation point, each source key
disappears, and every untouched key keeps its value. -/
theorem move_id_numbers_spec (m : List (NodeId × NodeId)) :
    ∀ ids, ValidMove m ids →
    ∃ ids', move_id_numbers m ids = some ids' ∧
      (∀ s d, (s, d) ∈ m →
        btreeLookup d ids' = btreeLookup s ids ∧ btreeLookup s ids' = none) ∧
      (∀ k, k ∉ m.map Prod.fst → k ∉ m.map Prod.snd →
        btreeLookup k ids' = btreeLookup k ids) := by
  induction m with
  | nil =>
    intro ids _
    exact ⟨ids, rfl, by simp, fun k _ _ => rfl⟩
  | cons hd rest ih =>
    intro ids h
    obtain ⟨s₀, d₀⟩ := hd
    obtain ⟨hsort, hsrc, hdst, hfst, hsnd⟩ := h
    have hs₀mem : s₀ ∈ ids.map Prod.fst := hsrc (s₀, d₀) (List.mem_cons_self _ _)
    have hd₀mem : d₀ ∉ ids.map Prod.fst := hdst (s₀, d₀) (List.mem_cons_self _ _)
    have hs₀rest : s₀ ∉ rest.map Prod.fst := (List.nodup_cons.1 (by simpa using hfst)).1
    have hd₀rest : d₀ ∉ rest.map Prod.snd := (List.nodup_cons.1 (by simpa using hsnd)).1
    have hfst' : (rest.map Prod.fst).Nodup := (List.nodup_cons.1 (by simpa using hfst)).2
    have hsnd' : (rest.map Prod.snd).Nodup := (List.nodup_cons.1 (by simpa using hsnd)).2
    have hne₀ : d₀ ≠ s₀ := fun he => hd₀mem (he ▸ hs₀mem)
    obtain ⟨v, hv⟩ : ∃ v, btreeLookup s₀ ids = some v := by
      have h1 : btreeLookup s₀ ids ≠ none := (mem_keys_iff_lookup s₀ ids).1 hs₀mem
      cases hcase : btreeLookup s₀ ids with
      | none => exact absurd hcase h1
      | some v => exact ⟨v, rfl⟩
    have hrem : btreeRemove s₀ ids = (some v, (btreeRemove s₀ ids).2) := by
      have h1 := btreeRemove_fst s₀ ids
      rw [hv] at h1
      exact Prod.ext h1 rfl
    set ids₁ := btreeInsert d₀ v (btreeRemove s₀ ids).2 with hids₁
    have hsort₁ : SortedKeys ids₁ := (hsort.remove s₀).insert d₀ v
    have hlook₁ : ∀ k, k ≠ s₀ →
        btreeLookup k ids₁ = if k = d₀ then some v else btreeLookup k ids := by
      intro k hk
      rw [hids₁, btreeLookup_insert]
      by_cases h2 : k = d₀
      · simp [h2]
      · simp only [if_neg h2]
        exact btreeLookup_remove_ne k s₀ ids hk
    have hlooks₀ : btreeLookup s₀ ids₁ = none := by
      rw [hids₁, btreeLookup_insert, if_neg (fun he => hne₀ he.symm)]
      exact btreeLookup_remove_self s₀ ids hsort.nodupKeys
    have hvalid : ValidMove rest ids₁ := by
      refine ⟨hsort₁, ?_, ?_, hfst', hsnd'⟩
      · intro p hp
        have hmem : p.1 ∈ ids.map Prod.fst := hsrc p (List.mem_cons_of_mem _ hp)
        have hne : p.1 ≠ s₀ :=
          fun he => hs₀rest (he ▸ (List.mem_map_of_mem Prod.fst hp))
        rw [mem_keys_iff_lookup, hlook₁ p.1 hne]
        by_cases h2 : p.1 = d₀
        · simp [h2]
        · simp only [if_neg h2]
          exact (mem_keys_iff_lookup _ _).1 hmem
      · intro p hp
        have hmem : p.2 ∉ ids.map Prod.fst := hdst p (List.mem_cons_of_mem _ hp)
        have hne_d : p.2 ≠ d₀ :=
          fun he => hd₀rest (he ▸ (List.mem_map_of_mem Prod.snd hp))
        have hne_s : p.2 ≠ s₀ := fun he => hmem (he ▸ hs₀mem)
        rw [← btreeLookup_eq_none_iff, hlook₁ p.2 hne_s, if_neg hne_d]
        exact (btreeLookup_eq_none_iff _ _).2 hmem
    obtain ⟨ids', heq, hpairs, hun⟩ := ih ids₁ hvalid
    refine ⟨ids', ?_, ?_, ?_⟩
    · show move_id_numbers ((s₀, d₀) :: rest) ids = some ids'
      simp only [move_id_numbers]
      rw [hrem]
      exact heq
    · intro s d hsd
      rcases List.mem_cons.1 hsd with hhd | htl
      · obtain ⟨hs, hd⟩ : s = s₀ ∧ d = d₀ := by
          rw [Prod.mk.injEq] at hhd; exact hhd
        rw [hs, hd]
        constructor
        · have h1 : d₀ ∉ rest.map Prod.fst := by
            intro hmem
            obtain ⟨p, hp, hp1⟩ := List.mem_map.1 hmem
            exact hd₀mem (hp1 ▸ hsrc p (List.mem_cons_of_mem _ hp))
          rw [hun d₀ h1 hd₀rest, hlook₁ d₀ hne₀, if_pos rfl, hv]
        · have h2 : s₀ ∉ rest.map Prod.snd := by
            intro hmem
            obtain ⟨p, hp, hp2⟩ := List.mem_map.1 hmem
            exact (hdst p (List.mem_cons_of_mem _ hp)) (hp2 ▸ hs₀mem)
          rw [hun s₀ hs₀rest h2]
          exact hlooks₀
      · obtain ⟨h1, h2⟩ := hpairs s d htl
        refine ⟨?_, h2⟩
        rw [h1]
        have hsmem : s ∈ ids.map Prod.fst := hsrc (s, d) (List.mem_cons_of_mem _ htl)
        have hne_s : s ≠ s₀ :=
          fun he => hs₀rest (he ▸ (List.mem_map_of_mem Prod.fst htl))
        have hne_d : s ≠ d₀ := fun he => hd₀mem (he ▸ hsmem)
        rw [hlook₁ s hne_s, if_neg hne_d]
    · intro k hk1 hk2
      simp only [List.map_cons, List.mem_cons] at hk1 hk2
      push_neg at hk1 hk2
      rw [hun k hk1.2 hk2.2, hlook₁ k hk1.1, if_neg hk2.1]

/-- Key-containment is false exactly when the key is absent. -/
theorem btreeContains_eq_false_iff (k : Nat) (l : List (Nat × α)) :
    btreeContains k l = false ↔ k ∉ l.map Prod.fst := by
  rw [← btreeLookup_eq_none_iff, btreeContains]
  cases btreeLookup k l <;> simp

/-- C4: for every inbound message kind, a session nonce differing from this
session's nonce makes process_message return ReplayProtection with no state
mutation: the session data is unchanged, nothing is sent, nothing is persisted. -/
theorem C4_replay_protection (core : SessionCore) (data : SessionData) (sender : NodeId)
    (message : ShareMoveMessage) (h : core.nonce ≠ message.session_nonce) :
    process_message core data sender message =
      { result := .error .ReplayProtection, data := data, sent := [], ops := [] } := by
  simp [process_message, h]

/-- Witness for C4 at a concrete mismatching nonce. -/
theorem C4_replay_protection_witness :
    process_message (scenarioCore 0 (some shareA)) newSessionData 1
      (ShareMoveMessage.shareMoveConfirm
        { session := 9, sub_session := 7, session_nonce := 6 }) =
      { result := .error .ReplayProtection, data := newSessionData, sent := [], ops := [] } :=
  C4_replay_protection (scenarioCore 0 (some shareA)) newSessionData 1
    (ShareMoveMessage.shareMoveConfirm
      { session := 9, sub_session := 7, session_nonce := 6 }) (by decide)

/-- C9: on a node whose self id differs from the master id, the initialize entry
point is rejected (the source's debug assertion fires, modelled as a panic outcome)
and no messages are sent. -/
theorem C9_non_master_rejected (core : SessionCore) (data : SessionData)
    (m : List (NodeId × NodeId)) (h : core.meta.self_node_id ≠ core.meta.master_node_id) :
    initializeSession core data m =
      { result := .error .Panic, data := data, sent := [], ops := [] } := by
  simp [initializeSession, h]

/-- Witness for C9: the non-master holder node 1 cannot start the session. -/
theorem C9_non_master_rejected_witness :
    initializeSession (scenarioCore 1 (some shareB)) newSessionData scenarioMapping =
      { result := .error .Panic, data := newSessionData, sent := [], ops := [] } :=
  C9_non_master_rejected (scenarioCore 1 (some shareB)) newSessionData scenarioMapping
    (by decide)

/-- C8: a session-error message with matching nonce, in any state, makes the session
transition to Finished, return success, send nothing and persist nothing; the
resulting state is terminal for is_finished. -/
theorem C8_session_error_terminal (core : SessionCore) (data : SessionData)
    (sender : NodeId) (message : ShareMoveErrorMsg)
    (h : core.nonce = message.session_nonce) :
    process_message core data sender (ShareMoveMessage.shareMoveError message) =
      { result := .ok (), data := { data with state := SessionState.Finished },
        sent := [], ops := [] } ∧
    is_finished (process_message core data sender
      (ShareMoveMessage.shareMoveError message)).data = true := by
  constructor
  · simp [process_message, ShareMoveMessage.session_nonce, h, on_session_error]
  · simp [process_message, ShareMoveMessage.session_nonce, h, on_session_error, is_finished]

/-- Witness for C8 on a node in a non-terminal state. -/
theorem C8_session_error_terminal_witness :
    (process_message (scenarioCore 1 (some shareB)) dataMoveWaiting 0
      (ShareMoveMessage.shareMoveError
        { session := 9, sub_session := 7, session_nonce := 5, error := 0 }) =
      { result := .ok (), data := { dataMoveWaiting with state := SessionState.Finished },
        sent := [], ops := [] }) ∧
    is_finished (process_message (scenarioCore 1 (some shareB)) dataMoveWaiting 0
      (ShareMoveMessage.shareMoveError
        { session := 9, sub_session := 7, session_nonce := 5, error := 0 })).data = true :=
  C8_session_error_terminal (scenarioCore 1 (some shareB)) dataMoveWaiting 0
    { session := 9, sub_session := 7, session_nonce := 5, error := 0 } (by decide)

/-- C7: in state WaitingForMoveConfirmation a share delivery is accepted only from a
sender that the agreed mapping sends exactly to this node; any other sender fails
with InvalidMessage, no received share is stored and nothing is sent. -/
theorem C7_unassigned_delivery_rejected (core : SessionCore) (data : SessionData)
    (sender : NodeId) (message : ShareMoveMsg)
    (h1 : core.meta.id = message.session) (h2 : core.sub_session = message.sub_session)
    (h3 : sender ≠ core.meta.self_node_id)
    (h4 : data.state = SessionState.WaitingForMoveConfirmation)
    (h5 : btreeLookup sender data.shares_to_move ≠ some core.meta.self_node_id) :
    on_share_move core data sender message =
      { result := .error .InvalidMessage, data := data, sent := [], ops := [] } := by
  simp [on_share_move, h1, h2, h3, h4, h5]

/-- Witness for C7: the master (not a listed source for node 3) cannot deliver. -/
theorem C7_unassigned_delivery_rejected_witness :
    on_share_move (scenarioCore 3 none) dataMoveWaiting 0
      (move_share_message (scenarioCore 0 (some shareA)) shareA) =
      { result := .error .InvalidMessage, data := dataMoveWaiting, sent := [], ops := [] } :=
  C7_unassigned_delivery_rejected (scenarioCore 3 none) dataMoveWaiting 0
    (move_share_message (scenarioCore 0 (some shareA)) shareA)
    rfl rfl (by decide) rfl (by decide)

/-- C2 counterexample: a full successful exchange of the scenario (valid mapping, all
handlers returned ok, no message left in flight, every completion's storage write
applied) leaves is_finished false on every node, contrary to the claim. -/
theorem C2_counterexample_full_run_not_finished :
    scenarioFinal.ok = true ∧ scenarioFinal.queue = [] ∧
    scenarioFinal.nodes.map (fun p => p.2.storage) =
      [some { shareA with id_numbers := [(0, 10), (3, 11)] }, none,
       some { shareB with id_numbers := [(0, 10), (3, 11)] }] ∧
    scenarioFinal.nodes.map (fun p => is_finished p.2.data) = [false, false, false] := by
  refine ⟨by decide, by decide, by decide, by decide⟩

/-- C2 amended: completion never changes the session state, so after a full
successful exchange every node's session remains in WaitingForMoveConfirmation and
is_finished returns false on each node; Finished is reached only by a session-error
message. -/
theorem C2_no_terminal_state_on_completion :
    (∀ (core : SessionCore) (data : SessionData),
      (complete_session core data).data.state = data.state) ∧
    scenarioFinal.nodes.map (fun p => p.2.data.state) =
      [SessionState.WaitingForMoveConfirmation, SessionState.WaitingForMoveConfirmation,
       SessionState.WaitingForMoveConfirmation] ∧
    scenarioFinal.nodes.map (fun p => is_finished p.2.data) = [false, false, false] := by
  refine ⟨?_, by decide, by decide⟩
  intro core data
  by_cases h : btreeContains core.meta.self_node_id data.shares_to_move = true
  · simp [complete_session, h]
  · cases he : effective_share core data with
    | none => simp [complete_session, h, he]
    | some ks =>
      cases hm : move_id_numbers data.shares_to_move ks.id_numbers with
      | none => simp [complete_session, h, he, hm]
      | some ids2 => simp [complete_session, h, he, hm]

/-- C6: a second initialization confirmation from a sender no longer in the
init-outstanding set, and a second move confirmation from a sender no longer in the
move-outstanding set, are each rejected with InvalidMessage and leave the
outstanding sets and all other session data unaltered; in particular no completion
runs (no storage operation) and nothing is sent. -/
theorem C6_duplicate_confirmation_rejected :
    (∀ (core : SessionCore) (data : SessionData) (sender : NodeId)
        (message : ConfirmShareMoveInitializationMsg),
      core.meta.id = message.session → core.sub_session = message.sub_session →
      sender ≠ core.meta.self_node_id →
      core.meta.self_node_id = core.meta.master_node_id →
      data.state = SessionState.WaitingForInitializationConfirm →
      sender ∉ data.init_confirmations_to_receive →
      on_confirm_initialization core data sender message =
        { result := .error .InvalidMessage, data := data, sent := [], ops := [] }) ∧
    (∀ (core : SessionCore) (data : SessionData) (sender : NodeId)
        (message : ShareMoveConfirmMsg),
      core.meta.id = message.session → core.sub_session = message.sub_session →
      sender ≠ core.meta.self_node_id →
      data.state = SessionState.WaitingForMoveConfirmation →
      sender ∉ data.move_confirmations_to_receive →
      on_share_move_confirmation core data sender message =
        { result := .error .InvalidMessage, data := data, sent := [], ops := [] }) := by
  constructor
  · intro core data sender message h1 h2 h3 h4 h5 h6
    have hmaster : ¬ core.meta.self_node_id ≠ core.meta.master_node_id := by simp [h4]
    simp [on_confirm_initialization, h1, h2, h3, hmaster, h5, setRemove_of_not_mem h6]
    rw [← h5]
  · intro core data sender message h1 h2 h3 h4 h5
    simp [on_share_move_confirmation, h1, h2, h3, h4, setRemove_of_not_mem h5]
    rw [← h4]

/-- Witness for C6: duplicates on the scenario master and on a scenario peer. -/
theorem C6_duplicate_confirmation_rejected_witness :
    (on_confirm_initialization (scenarioCore 0 (some shareA))
      { state := SessionState.WaitingForInitializationConfirm
        init_confirmations_to_receive := [3]
        move_confirmations_to_receive := [3]
        shares_to_move := [(1, 3)]
        received_key_share := none } 1
      { session := 9, sub_session := 7, session_nonce := 5 } =
      { result := .error .InvalidMessage
        data := { state := SessionState.WaitingForInitializationConfirm
                  init_confirmations_to_receive := [3]
                  move_confirmations_to_receive := [3]
                  shares_to_move := [(1, 3)]
                  received_key_share := none }
        sent := [], ops := [] }) ∧
    (on_share_move_confirmation (scenarioCore 1 (some shareB)) dataAfterDelivery 3
      { session := 9, sub_session := 7, session_nonce := 5 } =
      { result := .error .InvalidMessage, data := dataAfterDelivery, sent := [],
        ops := [] }) :=
  ⟨C6_duplicate_confirmation_rejected.1 (scenarioCore 0 (some shareA))
      { state := SessionState.WaitingForInitializationConfirm
        init_confirmations_to_receive := [3]
        move_confirmations_to_receive := [3]
        shares_to_move := [(1, 3)]
        received_key_share := none } 1
      { session := 9, sub_session := 7, session_nonce := 5 }
      rfl rfl (by decide) rfl rfl (by decide),
   C6_duplicate_confirmation_rejected.2 (scenarioCore 1 (some shareB)) dataAfterDelivery 3
      { session := 9, sub_session := 7, session_nonce := 5 }
      rfl rfl (by decide) rfl (by decide)⟩

/-- C1: when completion runs, a node listed as a source has exactly its persisted
record removed and nothing else persisted; any other node persists the effective
record (the received one on a joining node, its own on a staying node) with every
mapping pair's id_numbers entry moved from source key to destination key, all other
fields untouched, through update on a staying node and insert on a joining node;
on a valid mapping the relocation always succeeds, each destination inherits
exactly its source's evaluation point, each source key disappears, and every
untouched key keeps its value. -/
theorem C1_complete_session_effects :
    (∀ (core : SessionCore) (data : SessionData),
      btreeContains core.meta.self_node_id data.shares_to_move = true →
      complete_session core data =
        { result := .ok (), data := data, sent := [], ops := [StorageOp.remove] }) ∧
    (∀ (core : SessionCore) (data : SessionData) (ks : DocumentKeyShare)
        (ids' : List (NodeId × Secret)),
      btreeContains core.meta.self_node_id data.shares_to_move = false →
      effective_share core data = some ks →
      move_id_numbers data.shares_to_move ks.id_numbers = some ids' →
      complete_session core data =
        { result := .ok (), data := { data with received_key_share := none }, sent := [],
          ops := [(if data.received_key_share.isNone then StorageOp.update
                    else StorageOp.insert) { ks with id_numbers := ids' }] }) ∧
    (∀ (m : List (NodeId × NodeId)) (ids : List (NodeId × Secret)),
      ValidMove m ids →
      ∃ ids', move_id_numbers m ids = some ids' ∧
        (∀ s d, (s, d) ∈ m →
          btreeLookup d ids' = btreeLookup s ids ∧ btreeLookup s ids' = none) ∧
        (∀ k, k ∉ m.map Prod.fst → k ∉ m.map Prod.snd →
          btreeLookup k ids' = btreeLookup k ids)) := by
  refine ⟨?_, ?_, fun m ids h => move_id_numbers_spec m ids h⟩
  · intro core data h
    simp [complete_session, h]
  · intro core data ks ids' h1 h2 h3
    simp [complete_session, h1, h2, h3]

/-- Witness for C1: completion of the staying scenario master updates its record in
place with the relocated id_numbers. -/
theorem C1_complete_session_effects_witness :
    complete_session (scenarioCore 0 (some shareA)) dataAfterDelivery =
      { result := .ok ()
        data := { dataAfterDelivery with received_key_share := none }
        sent := []
        ops := [(if dataAfterDelivery.received_key_share.isNone then StorageOp.update
                  else StorageOp.insert) { shareA with id_numbers := [(0, 10), (3, 11)] }] } :=
  C1_complete_session_effects.2.1 (scenarioCore 0 (some shareA)) dataAfterDelivery shareA
    [(0, 10), (3, 11)] (by decide) (by decide) (by decide)

/-- C10: on a destination node in state WaitingForMoveConfirmation, a delivery from
its assigned source is accepted even when the move-outstanding set already emptied:
the handler returns ok, stores the delivered record as the received share (consumed
again by the rerun of completion), re-broadcasts move confirmations to every other
participant, and completion runs again, persisting the delivered record (with the
id_numbers relocation applied) through a further insert. -/
theorem C10_duplicate_delivery_accepted (core : SessionCore) (data : SessionData)
    (sender : NodeId) (message : ShareMoveMsg) (ids' : List (NodeId × Secret))
    (h1 : core.meta.id = message.session) (h2 : core.sub_session = message.sub_session)
    (h3 : sender ≠ core.meta.self_node_id)
    (h4 : data.state = SessionState.WaitingForMoveConfirmation)
    (h5 : btreeLookup sender data.shares_to_move = some core.meta.self_node_id)
    (h6 : (setRemove core.meta.self_node_id data.move_confirmations_to_receive).2 = [])
    (h7 : btreeContains core.meta.self_node_id data.shares_to_move = false)
    (h8 : move_id_numbers data.shares_to_move message.id_numbers = some ids') :
    on_share_move core data sender message =
      { result := .ok ()
        data := { data with
                  move_confirmations_to_receive := []
                  received_key_share := none }
        sent := ((setFromList (valsOf data.shares_to_move ++
            keysOf message.id_numbers)).filter (fun n => n ≠ core.meta.self_node_id)).map
          (fun n => (n, ShareMoveMessage.shareMoveConfirm
            { session := core.meta.id, sub_session := core.sub_session,
              session_nonce := core.nonce }))
        ops := [StorageOp.insert
          { (share_from_message message) with id_numbers := ids' }] } := by
  simp [on_share_move, h1, h2, h3, h4, h5, h6, h7, h8, complete_session,
    effective_share, share_from_message]

/-- Witness for C10: a second delivery of node 1's share to node 3 after the first
one already completed is accepted and persisted again. -/
theorem C10_duplicate_delivery_accepted_witness :
    on_share_move (scenarioCore 3 none) dataAfterDelivery 1
      (move_share_message (scenarioCore 1 (some shareB)) shareB) =
      { result := .ok ()
        data := { dataAfterDelivery with
                  move_confirmations_to_receive := []
                  received_key_share := none }
        sent := ((setFromList (valsOf dataAfterDelivery.shares_to_move ++
            keysOf (move_share_message (scenarioCore 1 (some shareB))
              shareB).id_numbers)).filter (fun n => n ≠ 3)).map
          (fun n => (n, ShareMoveMessage.shareMoveConfirm
            { session := 9, sub_session := 7, session_nonce := 5 }))
        ops := [StorageOp.insert
          { (share_from_message (move_share_message (scenarioCore 1 (some shareB)) shareB))
              with id_numbers := [(0, 10), (3, 11)] }] } :=
  C10_duplicate_delivery_accepted (scenarioCore 3 none) dataAfterDelivery 1
    (move_share_message (scenarioCore 1 (some shareB)) shareB) [(0, 10), (3, 11)]
    rfl rfl (by decide) rfl (by decide) (by decide) (by decide) (by decide)

/-- C3: validation fails with InvalidMessage on an empty mapping; with a holder view,
a source that is not a holder or a destination that is a holder fails with
InvalidNodesConfiguration; without a holder view, the checking node listed as a
source, or not listed as a destination, fails with InvalidMessage; in either branch
repeated destinations fail with InvalidNodesConfiguration; and the master's
initialize on a two-sources-one-destination mapping fails with
InvalidNodesConfiguration sending nothing. -/
theorem C3_validation_errors :
    (∀ (self : NodeId) (v : Option (List (NodeId × Secret))),
      check_shares_to_move self [] v = .error .InvalidMessage) ∧
    (∀ (self : NodeId) (m : List (NodeId × NodeId)) (ids : List (NodeId × Secret)),
      ((∃ p ∈ m, p.1 ∉ keysOf ids) ∨ (∃ p ∈ m, p.2 ∈ keysOf ids)) →
      check_shares_to_move self m (some ids) = .error .InvalidNodesConfiguration) ∧
    (∀ (self : NodeId) (m : List (NodeId × NodeId)),
      (self ∈ keysOf m ∨ self ∉ valsOf m) →
      check_shares_to_move self m none = .error .InvalidMessage) ∧
    (∀ (self : NodeId) (m : List (NodeId × NodeId)) (ids : List (NodeId × Secret)),
      m ≠ [] →
      (∀ p ∈ m, p.1 ∈ keysOf ids) →
      (∀ p ∈ m, p.2 ∉ keysOf ids) →
      ¬ (valsOf m).Nodup →
      check_shares_to_move self m (some ids) = .error .InvalidNodesConfiguration) ∧
    (∀ (self : NodeId) (m : List (NodeId × NodeId)),
      self ∉ keysOf m →
      self ∈ valsOf m →
      ¬ (valsOf m).Nodup →
      check_shares_to_move self m none = .error .InvalidNodesConfiguration) ∧
    (initializeSession (scenarioCore 0 (some shareThree)) newSessionData [(1, 4), (2, 4)] =
      { result := .error .InvalidNodesConfiguration, data := newSessionData, sent := [],
        ops := [] }) := by
  refine ⟨?_, ?_, ?_, ?_, ?_, by decide⟩
  · intro self v
    simp [check_shares_to_move]
  · intro self m ids h
    have hne : m ≠ [] := by
      rcases h with ⟨p, hp, _⟩ | ⟨p, hp, _⟩ <;> exact List.ne_nil_of_mem hp
    have hempty : m.isEmpty = false := List.isEmpty_eq_false.mpr hne
    by_cases hA : (keysOf m).any (fun n => !(btreeContains n ids)) = true
    · simp [check_shares_to_move, hempty, hA]
    · have hB : (valsOf m).any (fun n => btreeContains n ids) = true := by
        rcases h with ⟨p, hp, hp1⟩ | ⟨p, hp, hp2⟩
        · refine absurd (List.any_eq_true.2 ⟨p.1, List.mem_map_of_mem Prod.fst hp, ?_⟩) hA
          have hc : btreeContains p.1 ids = false :=
            (btreeContains_eq_false_iff p.1 ids).2 hp1
          simp [hc]
        · exact List.any_eq_true.2 ⟨p.2, List.mem_map_of_mem Prod.snd hp,
            (btreeContains_iff _ _).2 hp2⟩
      have hA' : (keysOf m).any (fun n => !(btreeContains n ids)) = false :=
        Bool.eq_false_iff.mpr hA
      simp [check_shares_to_move, hempty, hA', hB]
  · intro self m h
    by_cases hm : m = []
    · subst hm
      simp [check_shares_to_move]
    · have hempty : m.isEmpty = false := List.isEmpty_eq_false.mpr hm
      by_cases hk : btreeContains self m = true
      · simp [check_shares_to_move, hempty, hk]
      · have hk' : btreeContains self m = false := Bool.eq_false_iff.mpr hk
        have h2 : self ∉ valsOf m := by
          rcases h with h | h
          · exact absurd ((btreeContains_iff self m).2 h) hk
          · exact h
        have hB : (valsOf m).any (fun n => n = self) = false := by
          rw [List.any_eq_false]
          intro x hx
          simp only [decide_eq_true_eq]
          intro he
          exact h2 (he ▸ hx)
        simp [check_shares_to_move, hempty, hk', hB]
  · intro self m ids hne hkeys hvals hnd
    have hempty : m.isEmpty = false := List.isEmpty_eq_false.mpr hne
    have hA : (keysOf m).any (fun n => !(btreeContains n ids)) = false := by
      rw [List.any_eq_false]
      intro x hx
      obtain ⟨p, hp, hpx⟩ := List.mem_map.1 hx
      have hc : btreeContains x ids = true :=
        (btreeContains_iff x ids).2 (hpx ▸ hkeys p hp)
      simp [hc]
    have hB : (valsOf m).any (fun n => btreeContains n ids) = false := by
      rw [List.any_eq_false]
      intro x hx
      obtain ⟨p, hp, hpx⟩ := List.mem_map.1 hx
      have hc : btreeContains x ids = false :=
        (btreeContains_eq_false_iff x ids).2 (hpx ▸ hvals p hp)
      simp [hc]
    have hlen : (setFromList (valsOf m)).length ≠ m.length := by
      have h1 : (setFromList (valsOf m)).length < (valsOf m).length := by
        have h0 := length_setExtendList_lt (l := valsOf m) (s := [])
          List.Pairwise.nil (Or.inl hnd)
        simpa [setFromList] using h0
      have h2 : (valsOf m).length = m.length := by simp [valsOf]
      omega
    simp [check_shares_to_move, hempty, hA, hB, hlen]
  · intro self m hk hv hnd
    have hne : m ≠ [] := by
      intro he
      rw [he] at hv
      simp [valsOf] at hv
    have hempty : m.isEmpty = false := List.isEmpty_eq_false.mpr hne
    have hk' : btreeContains self m = false := (btreeContains_eq_false_iff self m).2 hk
    have hB : (valsOf m).any (fun n => n = self) = true :=
      List.any_eq_true.2 ⟨self, hv, by simp⟩
    have hlen : (setFromList (valsOf m)).length ≠ m.length := by
      have h1 : (setFromList (valsOf m)).length < (valsOf m).length := by
        have h0 := length_setExtendList_lt (l := valsOf m) (s := [])
          List.Pairwise.nil (Or.inl hnd)
        simpa [setFromList] using h0
      have h2 : (valsOf m).length = m.length := by simp [valsOf]
      omega
    simp [check_shares_to_move, hempty, hk', hB, hlen]

/-- Witness for C3: a mapping sending holders 1 and 2 to the same destination 4. -/
theorem C3_validation_errors_witness :
    check_shares_to_move 0 [(1, 4), (2, 4)] (some idsThree) =
      .error .InvalidNodesConfiguration :=
  C3_validation_errors.2.2.2.1 0 [(1, 4), (2, 4)] idsThree (by decide) (by decide)
    (by decide) (by decide)

/-- C5: on the master in the initial state of a fresh session, with its own share
and a mapping passing validation, initialize records the mapping, sets the
init-outstanding set to all current holders plus all destinations minus itself, sets
the move-outstanding set to the destinations, transitions to
WaitingForInitializationConfirm, sends the initialization proposal to exactly the
init-outstanding set, and persists nothing; with the same preconditions but another
state it fails with InvalidStateForRequest leaving everything unchanged. -/
theorem C5_master_initialization :
    (∀ (core : SessionCore) (data : SessionData) (ks : DocumentKeyShare)
        (m : List (NodeId × NodeId)),
      core.meta.self_node_id = core.meta.master_node_id →
      core.key_share = some ks →
      check_shares_to_move core.meta.self_node_id m (some ks.id_numbers) = .ok () →
      data.state = SessionState.WaitingForInitialization →
      data.init_confirmations_to_receive = [] →
      data.move_confirmations_to_receive = [] →
      data.shares_to_move = [] →
      SortedKeys m →
      (initializeSession core data m).result = .ok () ∧
      (initializeSession core data m).data.state =
        SessionState.WaitingForInitializationConfirm ∧
      (initializeSession core data m).data.shares_to_move = m ∧
      (∀ n, n ∈ (initializeSession core data m).data.move_confirmations_to_receive ↔
        n ∈ valsOf m) ∧
      (∀ n, n ∈ (initializeSession core data m).data.init_confirmations_to_receive ↔
        ((n ∈ keysOf ks.id_numbers ∨ n ∈ valsOf m) ∧ n ≠ core.meta.self_node_id)) ∧
      (initializeSession core data m).sent =
        (initializeSession core data m).data.init_confirmations_to_receive.map
          (fun n => (n, ShareMoveMessage.initializeShareMoveSession
            { session := core.meta.id, sub_session := core.sub_session,
              session_nonce := core.nonce, shares_to_move := m })) ∧
      (initializeSession core data m).ops = []) ∧
    (∀ (core : SessionCore) (data : SessionData) (ks : DocumentKeyShare)
        (m : List (NodeId × NodeId)),
      core.meta.self_node_id = core.meta.master_node_id →
      core.key_share = some ks →
      check_shares_to_move core.meta.self_node_id m (some ks.id_numbers) = .ok () →
      data.state ≠ SessionState.WaitingForInitialization →
      initializeSession core data m =
        { result := .error .InvalidStateForRequest, data := data, sent := [],
          ops := [] }) := by
  constructor
  · intro core data ks m h1 h2 h3 h4 h5 h6 h7 h8
    have hmaster : ¬ core.meta.self_node_id ≠ core.meta.master_node_id := by simp [h1]
    have hstate : ¬ data.state ≠ SessionState.WaitingForInitialization := by simp [h4]
    have hshares : btreeExtendMap [] m = m :=
      btreeExtendMap_of_sorted (by simpa using h8)
    have houtcome : initializeSession core data m =
        { result := .ok ()
          data := { data with
            state := SessionState.WaitingForInitializationConfirm
            shares_to_move := m
            move_confirmations_to_receive := setExtendList [] (valsOf m)
            init_confirmations_to_receive := (setRemove core.meta.self_node_id
              (setExtendList [] (keysOf ks.id_numbers ++ valsOf m))).2 }
          sent := ((setRemove core.meta.self_node_id
              (setExtendList [] (keysOf ks.id_numbers ++ valsOf m))).2).map
            (fun n => (n, ShareMoveMessage.initializeShareMoveSession
              { session := core.meta.id, sub_session := core.sub_session,
                session_nonce := core.nonce, shares_to_move := m }))
          ops := [] } := by
      simp [initializeSession, hmaster, h2, h3, hstate, hshares, h5, h6, h7]
    rw [houtcome]
    refine ⟨rfl, rfl, rfl, ?_, ?_, rfl, rfl⟩
    · intro n
      rw [mem_setExtendList]
      simp
    · intro n
      have hnd : (setExtendList [] (keysOf ks.id_numbers ++ valsOf m)).Nodup :=
        nodup_of_sorted (sorted_setExtendList _ List.Pairwise.nil)
      rw [mem_setRemove hnd, mem_setExtendList]
      simp [List.mem_append]
  · intro core data ks m h1 h2 h3 h4
    have hmaster : ¬ core.meta.self_node_id ≠ core.meta.master_node_id := by simp [h1]
    simp [initializeSession, hmaster, h2, h3, h4]

/-- Witness for C5: initialize on the scenario master after it already left the
initial state. -/
theorem C5_master_initialization_witness :
    initializeSession (scenarioCore 0 (some shareA)) dataMoveWaiting scenarioMapping =
      { result := .error .InvalidStateForRequest, data := dataMoveWaiting, sent := [],
        ops := [] } :=
  C5_master_initialization.2 (scenarioCore 0 (some shareA)) dataMoveWaiting shareA
    scenarioMapping rfl rfl (by decide) (by decide)

end ShareMove
